import Mathlib

/-!
Shallow embedding of
`imblearn/under_sampling/prototype_selection/neighbourhood_cleaning_rule.py`
(class `NeighbourhoodCleaningRule`): the constructor configuration, the
`fit`-time validation (including the attribute writes it performs on the
Python object), and the `_sample` cleaning pass.

The two external collaborators — the k-nearest-neighbour search provider and
the delegated `EditedNearestNeighbours` pass — are not part of this module's
source; they are parameters of the embedding (`knn`, `ennFS`).  The base
sampler's `fit` (shape recording, resampling-ratio computation) and the
combined `fit_sample` entry point are likewise outside the module and are
modelled from the spec where needed.

Labels are embedded as `Int`, feature rows as `List Int`, and the float
`threshold_cleaning` as `ℚ`.
-/

namespace NCR

/-- Feature rows of the matrix X. -/
abbrev Row := List Int

/-- The tuple SEL_KIND from the source: accepted values of kind_sel. -/
def SEL_KIND : List String := ["all", "mode"]

/-- Constructor arguments of NeighbourhoodCleaningRule (source lines 92-108).
`ratioSpec` embeds the `ratio` argument. -/
structure Config where
  ratioSpec : String
  return_indices : Bool
  random_state : Option Int
  size_ngh : Option Nat
  n_neighbors : Nat
  kind_sel : String
  threshold_cleaning : ℚ
  n_jobs : Nat
  deriving DecidableEq

/-- Labels not yet seen, in first-occurrence order, accumulating the seen
ones. -/
def uniqueLabelsAux (seen : List Int) : List Int → List Int
  | [] => []
  | c :: rest =>
      if c ∈ seen then uniqueLabelsAux seen rest
      else c :: uniqueLabelsAux (c :: seen) rest

/-- Distinct labels of y in first-occurrence order: the iteration order of
`Counter(y)` (insertion order in Python 3.7+). -/
def uniqueLabels (y : List Int) : List Int :=
  uniqueLabelsAux [] y

/-- `min(target_stats, key=target_stats.get)`: the label of least count, the
first such label in iteration order winning ties (Python `min` keeps the
current best unless a strictly smaller key appears). -/
def classMinority (y : List Int) : Int :=
  match uniqueLabels y with
  | [] => 0
  | c :: cs => cs.foldl (fun best d => if y.count d < y.count best then d else best) c

/-- The label of greatest count, first occurrence winning ties (Python `max`
over the Counter). -/
def classMajority (y : List Int) : Int :=
  match uniqueLabels y with
  | [] => 0
  | c :: cs => cs.foldl (fun best d => if y.count best < y.count d then d else best) c

/-- Modelled from the spec: the base sampler's fit (not under src) resolves
the default "auto" resampling ratio to the classes eligible for
under-sampling — per the spec, every class other than the majority class. -/
def autoRatioKeys (y : List Int) : List Int :=
  (uniqueLabels y).filter (fun c => decide (c ≠ classMajority y))

/-- Errors a fit call can raise: base-validation failure (modelled from the
spec), the NotImplementedError of an invalid kind_sel (source line 133), and
the ValueError of an out-of-range threshold (source line 136). -/
inductive FitError
  | invalidInput
  | notImplementedError
  | valueError
  deriving DecidableEq

/-- Observable attribute state of the Python object: the constructor
configuration plus the attributes that fit assigns.  `nnParams` models the
`nn_` provider as its resolved neighbour count (`n_neighbors + 1`, per
`check_neighbors_object` with `additional_neighbor=1`) and worker count;
`ratioKeys` models the keys of `ratio_`; `X_shape` models `X_shape_`. -/
structure PyState where
  cfg : Config
  nnParams : Option (Nat × Nat)
  ratioKeys : Option (List Int)
  X_shape : Option (Nat × Nat)
  deriving DecidableEq

/-- A freshly constructed object: no fitted attributes yet. -/
def initState (cfg : Config) : PyState :=
  { cfg := cfg, nnParams := none, ratioKeys := none, X_shape := none }

/-- The fit method (source lines 110-140) as a state transformation in the
Python attribute-assignment order: `super().fit` (modelled from the spec:
base validation, shape recording and ratio computation; not under src), then
the `nn_` construction, then the kind_sel check, then the threshold check.
Exceptions do not roll attribute writes back, so the state component is
returned alongside the outcome. -/
def fitStep (s : PyState) (X : List Row) (y : List Int) :
    Except FitError Unit × PyState :=
  if X.length = y.length ∧ y ≠ [] then
    let s2 : PyState :=
      { s with
        X_shape := some (X.length, (X.headD []).length),
        ratioKeys := some (autoRatioKeys y),
        nnParams := some (s.cfg.n_neighbors + 1, s.cfg.n_jobs) }
    if s.cfg.kind_sel ∈ SEL_KIND then
      if s.cfg.threshold_cleaning > 1 ∨ s.cfg.threshold_cleaning < 0 then
        (Except.error FitError.valueError, s2)
      else
        (Except.ok (), s2)
    else
      (Except.error FitError.notImplementedError, s2)
  else
    (Except.error FitError.invalidInput, s)

/-- Constructor arguments of the delegated EditedNearestNeighbours
collaborator, as passed at source lines 166-171. -/
structure ENNConfig where
  ratioSpec : String
  return_indices : Bool
  random_state : Option Int
  size_ngh : Option Nat
  n_neighbors : Nat
  kind_sel : String
  n_jobs : Nat
  deriving DecidableEq

/-- The EditedNearestNeighbours configuration built by `_sample` (source
lines 166-171): this component's ratio, seed, neighbourhood size and worker
count, `return_indices=True`, and `kind_sel` hard-coded to "mode". -/
def ennConfigOf (c : Config) : ENNConfig :=
  { ratioSpec := c.ratioSpec,
    return_indices := true,
    random_state := c.random_state,
    size_ngh := c.size_ngh,
    n_neighbors := c.n_neighbors,
    kind_sel := "mode",
    n_jobs := c.n_jobs }

/-- `scipy.stats.mode` of a label row: the smallest value among those of
maximal multiplicity (0 on an empty row, which scipy never yields here). -/
def listMode (l : List Int) : Int :=
  let maxCount := (l.map (fun c => l.count c)).foldl max 0
  match l.filter (fun c => decide (l.count c = maxCount)) with
  | [] => 0
  | c :: cs => cs.foldl min c

/-- Positions of the minority-class samples: the rows of `X[y ==
class_minority]` are the rows of X at these indices, in this order. -/
def minorityIdx (y : List Int) : List Nat :=
  (List.range y.length).filter (fun i => decide (y.getD i 0 = classMinority y))

/-- One entry of `nnhood_bool` (source lines 191-196) for the minority sample
at global index i, whose self-excluded neighbour list is `knn i`.  For
kind_sel "mode": the scipy mode of the neighbour labels equals the minority
label (`y_class` is constantly `class_minority`).  Otherwise (kind_sel
"all"): `np.all` over the raw integer label row — numpy truthiness, i.e.
every neighbour label is nonzero; the comparison with `class_minority`
computed at source line 195 is discarded. -/
def nnhoodBool (cfg : Config) (knn : Nat → List Nat) (y : List Int)
    (i : Nat) : Bool :=
  let labels := (knn i).map (fun j => y.getD j 0)
  if cfg.kind_sel = "mode" then
    decide (listMode labels = classMinority y)
  else
    labels.all (fun lab => decide (lab ≠ 0))

/-- `classes_under_sample` (source lines 181-184): the labels, in Counter
iteration order, that are keys of the fitted ratio and whose count strictly
exceeds `X.shape[0] * threshold_cleaning`. -/
def classesUnderSample (cfg : Config) (ratioKeys : List Int)
    (X : List Row) (y : List Int) : List Int :=
  (uniqueLabels y).filter (fun c =>
    decide (c ∈ ratioKeys) &&
    decide (((y.count c : ℚ)) > (X.length : ℚ) * cfg.threshold_cleaning))

/-- `index_a1` (source lines 173-175): the all-True mask over `range n` with
the ENN-retained positions set to False, flattened to indices — the sorted
complement of the retained set within `range n`. -/
def indexA1 (ennRetained : List Nat) (n : Nat) : List Nat :=
  (List.range n).filter (fun i => !decide (i ∈ ennRetained))

/-- `index_a2` (source lines 197-200): the neighbour indices of the minority
samples whose `nnhood_bool` entry is False, kept when their label is in
`classes_under_sample`, then `np.unique`: sorted and deduplicated, which for
in-range indices is a filter of `range n`. -/
def indexA2 (cfg : Config) (ratioKeys : List Int) (knn : Nat → List Nat)
    (X : List Row) (y : List Int) : List Nat :=
  let raw := ((minorityIdx y).filter (fun i => !nnhoodBool cfg knn y i)).flatMap knn
  let kept := raw.filter (fun j =>
    decide (y.getD j 0 ∈ classesUnderSample cfg ratioKeys X y))
  (List.range y.length).filter (fun j => decide (j ∈ kept))

/-- `union_a1_a2` (source line 202): `np.union1d` of the two sorted in-range
index lists — the sorted union, a filter of `range n`. -/
def unionA1A2 (cfg : Config) (ratioKeys : List Int) (ennRetained : List Nat)
    (knn : Nat → List Nat) (X : List Row) (y : List Int) : List Nat :=
  (List.range y.length).filter (fun i =>
    decide (i ∈ indexA1 ennRetained y.length) ||
    decide (i ∈ indexA2 cfg ratioKeys knn X y))

/-- `index_target_class` (source lines 203-205): the all-True mask with the
union set to False, flattened — the sorted complement of A1 ∪ A2. -/
def indexTargetClass (cfg : Config) (ratioKeys : List Int)
    (ennRetained : List Nat) (knn : Nat → List Nat)
    (X : List Row) (y : List Int) : List Nat :=
  (List.range y.length).filter (fun i =>
    !decide (i ∈ unionA1A2 cfg ratioKeys ennRetained knn X y))

/-- Guard under which the `_sample` body runs without raising: X and y agree
in length (guaranteed by the base fit), the ENN collaborator returns in-range
indices and the neighbour search returns in-range neighbours (their
contracts; out-of-range fancy indexing raises IndexError), and kind_sel is
one of SEL_KIND (otherwise line 198 hits an unbound `nnhood_bool`). -/
def sampleGuard (cfg : Config) (ennRetained : List Nat)
    (knn : Nat → List Nat) (X : List Row) (y : List Int) : Bool :=
  decide (X.length = y.length) &&
  ennRetained.all (fun j => decide (j < y.length)) &&
  (minorityIdx y).all (fun i => (knn i).all (fun j => decide (j < y.length))) &&
  decide (cfg.kind_sel ∈ SEL_KIND)

/-- The `_sample` method (source lines 142-214).  `ennFS` is the delegated
`EditedNearestNeighbours.fit_sample`, projected to the retained-index array
it returns (its third output); `knn` gives each sample's self-excluded
nearest-neighbour index list (`kneighbors(...)[:, 1:]`).  Returns the triple
`(X[index_target_class], y[index_target_class], index_target_class)`, or
`none` when the body would raise. -/
def sample (cfg : Config) (ratioKeys : List Int)
    (ennFS : ENNConfig → List Row → List Int → List Nat)
    (knn : Nat → List Nat) (X : List Row) (y : List Int) :
    Option (List Row × List Int × List Nat) :=
  if sampleGuard cfg (ennFS (ennConfigOf cfg) X y) knn X y then
    some ((indexTargetClass cfg ratioKeys (ennFS (ennConfigOf cfg) X y) knn X y).map
            (fun i => X.getD i []),
          (indexTargetClass cfg ratioKeys (ennFS (ennConfigOf cfg) X y) knn X y).map
            (fun i => y.getD i 0),
          indexTargetClass cfg ratioKeys (ennFS (ennConfigOf cfg) X y) knn X y)
  else
    none

/-- Shape of the value `_sample` returns to the caller: a pair, or a triple
when `return_indices` is set. -/
inductive SampleOut
  | pair (Xr : List Row) (yr : List Int)
  | triple (Xr : List Row) (yr : List Int) (idx : List Nat)
  deriving DecidableEq

/-- The return statement of `_sample` (source lines 210-214): the triple when
`return_indices` is set, the pair otherwise. -/
def sampleResult (cfg : Config) (ratioKeys : List Int)
    (ennFS : ENNConfig → List Row → List Int → List Nat)
    (knn : Nat → List Nat) (X : List Row) (y : List Int) :
    Option SampleOut :=
  match sample cfg ratioKeys ennFS knn X y with
  | none => none
  | some (Xr, yr, idx) =>
      some (if cfg.return_indices then SampleOut.triple Xr yr idx
            else SampleOut.pair Xr yr)

/-- Modelled from the spec: the combined fit-and-clean convenience entry
point of the base mixin (not under src) — fit, then the cleaning pass with
the fitted ratio keys; a fit error propagates and the cleaning pass never
runs. -/
def fit_sample (cfg : Config)
    (ennFS : ENNConfig → List Row → List Int → List Nat)
    (knn : Nat → List Nat) (X : List Row) (y : List Int) :
    Except FitError (Option SampleOut) :=
  match fitStep (initState cfg) X y with
  | (Except.ok _, s) =>
      Except.ok (sampleResult cfg (s.ratioKeys.getD []) ennFS knn X y)
  | (Except.error e, _) => Except.error e

/-! Concrete fixtures used by witnesses: a four-sample dataset with minority
class 0, a deterministic neighbour search, and a deterministic ENN
collaborator. -/

/-- Example label vector: class 0 is the minority (one sample), class 1 the
majority (three samples). -/
def yEx : List Int := [0, 1, 1, 1]

/-- Example feature matrix, one feature per row. -/
def XEx : List Row := [[0], [10], [20], [30]]

/-- Deterministic neighbour lists (self excluded) for the example. -/
def knnEx : Nat → List Nat := fun i =>
  match i with
  | 0 => [1, 2, 3]
  | 1 => [0, 2, 3]
  | 2 => [1, 3, 0]
  | 3 => [1, 2, 0]
  | _ => []

/-- Default constructor configuration with `return_indices` enabled. -/
def cfgEx : Config :=
  { ratioSpec := "auto", return_indices := true, random_state := none,
    size_ngh := none, n_neighbors := 3, kind_sel := "all",
    threshold_cleaning := mkRat 1 2, n_jobs := 1 }

/-- The default configuration with an invalid kind_sel. -/
def cfgBadKind : Config :=
  { cfgEx with kind_sel := "invalid" }

/-- A configuration with an invalid kind_sel and an out-of-range threshold
at the same time. -/
def cfgBadBoth : Config :=
  { cfgEx with kind_sel := "invalid", threshold_cleaning := mkRat 3 2 }

/-- A deterministic ENN collaborator that retains samples 0, 1 and 2. -/
def ennFSex : ENNConfig → List Row → List Int → List Nat :=
  fun _ _ _ => [0, 1, 2]

/-- A second collaborator, distinct as a function but agreeing with
`ennFSex` on every "mode" configuration. -/
def ennFSex2 : ENNConfig → List Row → List Int → List Nat :=
  fun c _ _ => if c.kind_sel = "mode" then [0, 1, 2] else [9]

/-! Membership lemmas for the index sets of the cleaning pass. -/

theorem mem_uniqueLabelsAux (l : List Int) (seen : List Int) (c : Int) :
    c ∈ uniqueLabelsAux seen l ↔ c ∈ l ∧ c ∉ seen := by
  induction l generalizing seen with
  | nil => simp [uniqueLabelsAux]
  | cons a rest ih =>
      by_cases ha : a ∈ seen
      · simp only [uniqueLabelsAux, if_pos ha, ih, List.mem_cons]
        constructor
        · rintro ⟨h1, h2⟩; exact ⟨Or.inr h1, h2⟩
        · rintro ⟨h1 | h1, h2⟩
          · exact absurd (h1 ▸ ha) h2
          · exact ⟨h1, h2⟩
      · simp only [uniqueLabelsAux, if_neg ha, List.mem_cons, ih]
        by_cases hca : c = a
        · subst hca; tauto
        · tauto

theorem mem_uniqueLabels (y : List Int) (c : Int) :
    c ∈ uniqueLabels y ↔ c ∈ y := by
  simp [uniqueLabels, mem_uniqueLabelsAux]

theorem mem_indexA1 (r : List Nat) (n : Nat) (i : Nat) :
    i ∈ indexA1 r n ↔ i < n ∧ i ∉ r := by
  simp [indexA1, List.mem_filter, List.mem_range]

theorem mem_minorityIdx (y : List Int) (i : Nat) :
    i ∈ minorityIdx y ↔ i < y.length ∧ y.getD i 0 = classMinority y := by
  simp [minorityIdx, List.mem_filter, List.mem_range]

theorem mem_classesUnderSample (cfg : Config) (ratioKeys : List Int)
    (X : List Row) (y : List Int) (c : Int)
    (ht : 0 ≤ cfg.threshold_cleaning) :
    c ∈ classesUnderSample cfg ratioKeys X y ↔
      c ∈ ratioKeys ∧
      (y.count c : ℚ) > (X.length : ℚ) * cfg.threshold_cleaning := by
  simp only [classesUnderSample, List.mem_filter, Bool.and_eq_true,
    decide_eq_true_eq, mem_uniqueLabels]
  constructor
  · rintro ⟨_, h2, h3⟩; exact ⟨h2, h3⟩
  · rintro ⟨h2, h3⟩
    have hpos : (0 : ℚ) < (y.count c : ℚ) :=
      lt_of_le_of_lt (mul_nonneg (Nat.cast_nonneg _) ht) h3
    exact ⟨List.count_pos_iff.mp (by exact_mod_cast hpos), h2, h3⟩

theorem mem_indexA2 (cfg : Config) (ratioKeys : List Int)
    (knn : Nat → List Nat) (X : List Row) (y : List Int) (j : Nat)
    (hknn : ∀ i ∈ minorityIdx y, ∀ j' ∈ knn i, j' < y.length) :
    j ∈ indexA2 cfg ratioKeys knn X y ↔
      (∃ i ∈ minorityIdx y, nnhoodBool cfg knn y i = false ∧ j ∈ knn i) ∧
      y.getD j 0 ∈ classesUnderSample cfg ratioKeys X y := by
  simp only [indexA2, List.mem_filter, List.mem_range, List.mem_flatMap,
    decide_eq_true_eq, Bool.not_eq_true']
  constructor
  · rintro ⟨_, ⟨i, ⟨hi, hbool⟩, hj⟩, helig⟩
    exact ⟨⟨i, hi, hbool, hj⟩, helig⟩
  · rintro ⟨⟨i, hi, hbool, hj⟩, helig⟩
    exact ⟨hknn i hi j hj, ⟨i, ⟨hi, hbool⟩, hj⟩, helig⟩

theorem mem_indexTargetClass (cfg : Config) (ratioKeys : List Int)
    (ennRetained : List Nat) (knn : Nat → List Nat)
    (X : List Row) (y : List Int) (i : Nat) :
    i ∈ indexTargetClass cfg ratioKeys ennRetained knn X y ↔
      i < y.length ∧
      i ∉ indexA1 ennRetained y.length ∧
      i ∉ indexA2 cfg ratioKeys knn X y := by
  simp only [indexTargetClass, unionA1A2, List.mem_filter, List.mem_range,
    Bool.not_eq_true', decide_eq_false_iff_not, Bool.or_eq_true,
    decide_eq_true_eq]
  constructor
  · rintro ⟨h1, h2⟩
    refine ⟨h1, ?_, ?_⟩ <;> intro hc <;> exact h2 ⟨h1, by tauto⟩
  · rintro ⟨h1, h2, h3⟩
    exact ⟨h1, fun hc => by tauto⟩

theorem sample_eq_some (cfg : Config) (ratioKeys : List Int)
    (ennFS : ENNConfig → List Row → List Int → List Nat)
    (knn : Nat → List Nat) (X : List Row) (y : List Int)
    (Xr : List Row) (yr : List Int) (idx : List Nat)
    (h : sample cfg ratioKeys ennFS knn X y = some (Xr, yr, idx)) :
    idx = indexTargetClass cfg ratioKeys (ennFS (ennConfigOf cfg) X y) knn X y ∧
    Xr = idx.map (fun i => X.getD i []) ∧
    yr = idx.map (fun i => y.getD i 0) := by
  unfold sample at h
  split at h
  · simp only [Option.some.injEq, Prod.mk.injEq] at h
    obtain ⟨hX, hy, hidx⟩ := h
    subst hidx
    exact ⟨rfl, hX.symm, hy.symm⟩
  · exact absurd h (by simp)

/-! Claim theorems. -/

/-- C1: for every valid input and fitted configuration, the retained-index
set produced by the cleaning pass is a subset of `range(n_samples)` and
contains exactly the indices outside the union of the stage-A1 and stage-A2
noise sets; every index in A1 ∪ A2 is excluded. -/
theorem retained_iff_not_in_union (cfg : Config) (ratioKeys : List Int)
    (ennFS : ENNConfig → List Row → List Int → List Nat)
    (knn : Nat → List Nat) (X : List Row) (y : List Int)
    (Xr : List Row) (yr : List Int) (idx : List Nat)
    (h : sample cfg ratioKeys ennFS knn X y = some (Xr, yr, idx)) :
    (∀ i ∈ idx, i < y.length) ∧
    (∀ i, i ∈ idx ↔
      (i < y.length ∧
       i ∉ indexA1 (ennFS (ennConfigOf cfg) X y) y.length ∧
       i ∉ indexA2 cfg ratioKeys knn X y)) := by
  obtain ⟨hidx, -, -⟩ :=
    sample_eq_some cfg ratioKeys ennFS knn X y Xr yr idx h
  subst hidx
  refine ⟨fun i hi => (mem_indexTargetClass _ _ _ _ _ _ _ |>.mp hi).1, ?_⟩
  intro i
  exact mem_indexTargetClass _ _ _ _ _ _ _

/-- Witness for C1 at the concrete fixtures: the cleaning pass retains
indices 0, 1, 2 of the four-sample dataset. -/
theorem retained_iff_not_in_union_witness :
    (∀ i ∈ ([0, 1, 2] : List Nat), i < yEx.length) ∧
    (∀ i, i ∈ ([0, 1, 2] : List Nat) ↔
      (i < yEx.length ∧
       i ∉ indexA1 (ennFSex (ennConfigOf cfgEx) XEx yEx) yEx.length ∧
       i ∉ indexA2 cfgEx [1] knnEx XEx yEx)) :=
  retained_iff_not_in_union cfgEx [1] ennFSex knnEx XEx yEx
    [[0], [10], [20]] [0, 1, 1] [0, 1, 2] (by decide)

/-- C4: every retained output row is the input row at the retained index —
the output labels and features are the maps of y and X over the retained
indices — and the retained indices are strictly increasing, so the rows keep
their original relative order (the embedding is pure, so X and y are not
mutated). -/
theorem output_rows_correspond (cfg : Config) (ratioKeys : List Int)
    (ennFS : ENNConfig → List Row → List Int → List Nat)
    (knn : Nat → List Nat) (X : List Row) (y : List Int)
    (Xr : List Row) (yr : List Int) (idx : List Nat)
    (h : sample cfg ratioKeys ennFS knn X y = some (Xr, yr, idx)) :
    Xr = idx.map (fun i => X.getD i []) ∧
    yr = idx.map (fun i => y.getD i 0) ∧
    List.Pairwise (· < ·) idx := by
  obtain ⟨hidx, hX, hy⟩ :=
    sample_eq_some cfg ratioKeys ennFS knn X y Xr yr idx h
  refine ⟨hX, hy, ?_⟩
  rw [hidx]
  exact List.Pairwise.filter _ (List.pairwise_lt_range _)

/-- Witness for C4 at the concrete fixtures. -/
theorem output_rows_correspond_witness :
    ([[0], [10], [20]] : List Row) =
      ([0, 1, 2] : List Nat).map (fun i => XEx.getD i []) ∧
    ([0, 1, 1] : List Int) =
      ([0, 1, 2] : List Nat).map (fun i => yEx.getD i 0) ∧
    List.Pairwise (· < ·) ([0, 1, 2] : List Nat) :=
  output_rows_correspond cfgEx [1] ennFSex knnEx XEx yEx
    [[0], [10], [20]] [0, 1, 1] [0, 1, 2] (by decide)

/-- C8: when `return_indices` is enabled the third output is exactly the
index array whose rows form the first two outputs, and disabling the option
changes nothing about which samples are selected: the pair returned then is
the same two arrays. -/
theorem return_indices_third_output (cfg : Config) (ratioKeys : List Int)
    (ennFS : ENNConfig → List Row → List Int → List Nat)
    (knn : Nat → List Nat) (X : List Row) (y : List Int)
    (Xr : List Row) (yr : List Int) (idx : List Nat)
    (h : sampleResult cfg ratioKeys ennFS knn X y =
      some (SampleOut.triple Xr yr idx)) :
    Xr = idx.map (fun i => X.getD i []) ∧
    yr = idx.map (fun i => y.getD i 0) ∧
    sampleResult { cfg with return_indices := false } ratioKeys ennFS knn X y =
      some (SampleOut.pair Xr yr) := by
  have hs : ∃ v, sample cfg ratioKeys ennFS knn X y = some v := by
    unfold sampleResult at h
    cases hv : sample cfg ratioKeys ennFS knn X y with
    | none => rw [hv] at h; exact absurd h (by simp)
    | some v => exact ⟨v, rfl⟩
  obtain ⟨⟨a, b, c⟩, hv⟩ := hs
  unfold sampleResult at h
  rw [hv] at h
  simp only [Option.some.injEq] at h
  by_cases hri : cfg.return_indices = true
  · rw [if_pos hri] at h
    injection h with h1 h2 h3
    subst h1; subst h2; subst h3
    obtain ⟨-, hX, hy⟩ :=
      sample_eq_some cfg ratioKeys ennFS knn X y _ _ _ hv
    have hv' : sample { cfg with return_indices := false }
        ratioKeys ennFS knn X y = some (a, b, c) := hv
    refine ⟨hX, hy, ?_⟩
    unfold sampleResult
    rw [hv']
    rfl
  · rw [if_neg hri] at h
    exact absurd h (by simp)

/-- Witness for C8 at the concrete fixtures. -/
theorem return_indices_third_output_witness :
    ([[0], [10], [20]] : List Row) =
      ([0, 1, 2] : List Nat).map (fun i => XEx.getD i []) ∧
    ([0, 1, 1] : List Int) =
      ([0, 1, 2] : List Nat).map (fun i => yEx.getD i 0) ∧
    sampleResult { cfgEx with return_indices := false } [1] ennFSex knnEx XEx yEx =
      some (SampleOut.pair [[0], [10], [20]] [0, 1, 1]) :=
  return_indices_third_output cfgEx [1] ennFSex knnEx XEx yEx
    [[0], [10], [20]] [0, 1, 1] [0, 1, 2] (by decide)

/-- C3: stage A1 invokes the EditedNearestNeighbours collaborator with
`kind_sel="mode"` regardless of this component's own kind_sel, with the same
neighbourhood size, seed and worker count, requesting its retained-index
array (`return_indices=True`); A1 is exactly the complement of the returned
index set within `range(n_samples)`; and the cleaning pass consults the
collaborator only through that one configuration. -/
theorem stageA1_delegation (cfg : Config) (r : List Nat) (n : Nat) :
    (ennConfigOf cfg).kind_sel = "mode" ∧
    (ennConfigOf cfg).n_neighbors = cfg.n_neighbors ∧
    (ennConfigOf cfg).random_state = cfg.random_state ∧
    (ennConfigOf cfg).n_jobs = cfg.n_jobs ∧
    (ennConfigOf cfg).return_indices = true ∧
    (∀ i, i ∈ indexA1 r n ↔ (i < n ∧ i ∉ r)) ∧
    (∀ (ennFS ennFS' : ENNConfig → List Row → List Int → List Nat)
       (ratioKeys : List Int) (knn : Nat → List Nat)
       (X : List Row) (y : List Int),
      ennFS (ennConfigOf cfg) X y = ennFS' (ennConfigOf cfg) X y →
      sample cfg ratioKeys ennFS knn X y =
        sample cfg ratioKeys ennFS' knn X y) := by
  refine ⟨rfl, rfl, rfl, rfl, rfl, fun i => mem_indexA1 r n i, ?_⟩
  intro ennFS ennFS' ratioKeys knn X y hEq
  unfold sample
  rw [hEq]

/-- Witness for C3: two collaborator functions that differ elsewhere but
agree on the "mode" configuration yield the same cleaning result. -/
theorem stageA1_delegation_witness :
    sample cfgEx [1] ennFSex knnEx XEx yEx =
      sample cfgEx [1] ennFSex2 knnEx XEx yEx :=
  (stageA1_delegation cfgEx [] 0).2.2.2.2.2.2 ennFSex ennFSex2 [1] knnEx
    XEx yEx (by decide)

/-- C9: with a nonnegative threshold (every fitted threshold is), a class is
eligible for stage-A2 cleaning iff it is a key of the fitted resampling
ratio and its count strictly exceeds `threshold_cleaning` times the sample
count; A2 collects, from the neighbour index lists of the inconsistent
minority samples, exactly the indices whose label is eligible, without
duplicates. -/
theorem stageA2_eligibility_and_collection (cfg : Config)
    (ratioKeys : List Int) (knn : Nat → List Nat)
    (X : List Row) (y : List Int)
    (ht : 0 ≤ cfg.threshold_cleaning)
    (hknn : ∀ i ∈ minorityIdx y, ∀ j' ∈ knn i, j' < y.length) :
    (∀ c, c ∈ classesUnderSample cfg ratioKeys X y ↔
      (c ∈ ratioKeys ∧
       (y.count c : ℚ) > (X.length : ℚ) * cfg.threshold_cleaning)) ∧
    (∀ j, j ∈ indexA2 cfg ratioKeys knn X y ↔
      ((∃ i ∈ minorityIdx y, nnhoodBool cfg knn y i = false ∧ j ∈ knn i) ∧
       y.getD j 0 ∈ classesUnderSample cfg ratioKeys X y)) ∧
    (indexA2 cfg ratioKeys knn X y).Nodup := by
  refine ⟨fun c => mem_classesUnderSample cfg ratioKeys X y c ht,
          fun j => mem_indexA2 cfg ratioKeys knn X y j hknn, ?_⟩
  exact (List.nodup_range _).filter _

/-- Witness for C9 at the concrete fixtures. -/
theorem stageA2_eligibility_and_collection_witness :
    (∀ c, c ∈ classesUnderSample cfgEx [1] XEx yEx ↔
      (c ∈ ([1] : List Int) ∧
       (yEx.count c : ℚ) > (XEx.length : ℚ) * cfgEx.threshold_cleaning)) ∧
    (∀ j, j ∈ indexA2 cfgEx [1] knnEx XEx yEx ↔
      ((∃ i ∈ minorityIdx yEx,
          nnhoodBool cfgEx knnEx yEx i = false ∧ j ∈ knnEx i) ∧
       yEx.getD j 0 ∈ classesUnderSample cfgEx [1] XEx yEx)) ∧
    (indexA2 cfgEx [1] knnEx XEx yEx).Nodup :=
  stageA2_eligibility_and_collection cfgEx [1] knnEx XEx yEx
    (by decide) (by decide)

/-- C10: the random seed is never consulted by the cleaning pass's own
selection logic — it is only forwarded to the delegated collaborator.  If
the collaborator's answer is unchanged between two seeds, the entire result
is unchanged; with deterministic collaborators the pass is a pure function
of (X, y, configuration). -/
theorem seed_only_through_collaborator (cfg : Config)
    (r1 r2 : Option Int) (ratioKeys : List Int)
    (ennFS : ENNConfig → List Row → List Int → List Nat)
    (knn : Nat → List Nat) (X : List Row) (y : List Int)
    (hEnn : ennFS (ennConfigOf { cfg with random_state := r1 }) X y =
            ennFS (ennConfigOf { cfg with random_state := r2 }) X y) :
    sampleResult { cfg with random_state := r1 } ratioKeys ennFS knn X y =
      sampleResult { cfg with random_state := r2 } ratioKeys ennFS knn X y := by
  unfold sampleResult sample
  rw [hEnn]
  rfl

/-- Witness for C10: seeds 1 and 2 give the same result on the fixtures. -/
theorem seed_only_through_collaborator_witness :
    sampleResult { cfgEx with random_state := some 1 } [1] ennFSex knnEx XEx yEx =
      sampleResult { cfgEx with random_state := some 2 } [1] ennFSex knnEx XEx yEx :=
  seed_only_through_collaborator cfgEx (some 1) (some 2) [1] ennFSex knnEx
    XEx yEx (by decide)

/-- C6: for every configuration whose kind_sel is outside `{"all","mode"}`,
fit on data passing base validation raises NotImplementedError — a
configuration error — and the combined fit-and-clean call propagates it, so
the cleaning pass never runs with such a kind_sel, whatever the
collaborators. -/
theorem invalid_kind_sel_rejected_at_fit (cfg : Config)
    (ennFS : ENNConfig → List Row → List Int → List Nat)
    (knn : Nat → List Nat) (X : List Row) (y : List Int)
    (hlen : X.length = y.length) (hy : y ≠ [])
    (hk : cfg.kind_sel ∉ SEL_KIND) :
    (fitStep (initState cfg) X y).1 =
      Except.error FitError.notImplementedError ∧
    fit_sample cfg ennFS knn X y =
      Except.error FitError.notImplementedError := by
  unfold fit_sample fitStep initState
  rw [if_pos ⟨hlen, hy⟩, if_neg hk]
  exact ⟨rfl, rfl⟩

/-- Witness for C6: kind_sel "invalid" is rejected on the fixtures. -/
theorem invalid_kind_sel_rejected_at_fit_witness :
    (fitStep (initState cfgBadKind) XEx yEx).1 =
      Except.error FitError.notImplementedError ∧
    fit_sample cfgBadKind ennFSex knnEx XEx yEx =
      Except.error FitError.notImplementedError :=
  invalid_kind_sel_rejected_at_fit cfgBadKind ennFSex knnEx XEx yEx
    (by decide) (by decide) (by decide)

/-- C7 counterexample: with kind_sel invalid as well, `threshold_cleaning =
3/2` lies strictly outside `[0, 1]` yet fit raises NotImplementedError — the
kind_sel check at source line 132 fires first — not the ValueError the
claim's "if and only if" requires. -/
theorem valueError_iff_threshold_cex :
    (cfgBadBoth.threshold_cleaning > 1 ∨ cfgBadBoth.threshold_cleaning < 0) ∧
    (fitStep (initState cfgBadBoth) XEx yEx).1 =
      Except.error FitError.notImplementedError ∧
    FitError.notImplementedError ≠ FitError.valueError :=
  ⟨by decide, rfl, by decide⟩

/-- C7 as amended: on data passing base validation and with a valid
kind_sel, fit raises ValueError exactly when `threshold_cleaning` lies
strictly outside `[0, 1]`, and the boundary values are accepted (fit
succeeds when `0 ≤ threshold_cleaning ≤ 1`). -/
theorem fit_valueError_iff_threshold (cfg : Config)
    (X : List Row) (y : List Int)
    (hlen : X.length = y.length) (hy : y ≠ [])
    (hk : cfg.kind_sel ∈ SEL_KIND) :
    ((fitStep (initState cfg) X y).1 = Except.error FitError.valueError ↔
      (cfg.threshold_cleaning > 1 ∨ cfg.threshold_cleaning < 0)) ∧
    (0 ≤ cfg.threshold_cleaning → cfg.threshold_cleaning ≤ 1 →
      (fitStep (initState cfg) X y).1 = Except.ok ()) := by
  unfold fitStep initState
  rw [if_pos ⟨hlen, hy⟩, if_pos hk]
  constructor
  · by_cases hthr : cfg.threshold_cleaning > 1 ∨ cfg.threshold_cleaning < 0
    · rw [if_pos hthr]
      simpa using hthr
    · rw [if_neg hthr]
      simp only [hthr, iff_false]
      intro hcontra
      exact Except.noConfusion hcontra
  · intro h0 h1
    rw [if_neg ?_]
    push_neg
    exact ⟨h1, h0⟩

/-- Witness for C7's amended theorem: the boundary threshold 1 is accepted
by fit on the fixtures. -/
theorem fit_valueError_iff_threshold_witness :
    (((fitStep (initState { cfgEx with threshold_cleaning := 1 }) XEx yEx).1 =
        Except.error FitError.valueError ↔
      (({ cfgEx with threshold_cleaning := 1 } : Config).threshold_cleaning > 1 ∨
       ({ cfgEx with threshold_cleaning := 1 } : Config).threshold_cleaning < 0)) ∧
    (0 ≤ ({ cfgEx with threshold_cleaning := 1 } : Config).threshold_cleaning →
      ({ cfgEx with threshold_cleaning := 1 } : Config).threshold_cleaning ≤ 1 →
      (fitStep (initState { cfgEx with threshold_cleaning := 1 }) XEx yEx).1 =
        Except.ok ())) :=
  fit_valueError_iff_threshold { cfgEx with threshold_cleaning := 1 } XEx yEx
    (by decide) (by decide) (by decide)

/-- C5 counterexample: a failed fit with an invalid kind_sel leaves the
object in a different observable state from before the call — `nn_`, the
ratio and the recorded shape have already been assigned when the check
fires. -/
theorem fit_failure_state_cex :
    (fitStep (initState cfgBadKind) XEx yEx).1 =
      Except.error FitError.notImplementedError ∧
    (fitStep (initState cfgBadKind) XEx yEx).2 ≠ initState cfgBadKind :=
  ⟨rfl, by decide⟩

/-- C5 as amended: when fit fails with the invalid-kind_sel configuration
error or the out-of-range-threshold value error, the attributes written
before the failing check are retained: the state after the call is the state
before with the recorded shape, the fitted ratio keys and the constructed
neighbour-search parameters assigned. -/
theorem fit_failure_retains_partial_state (s : PyState)
    (X : List Row) (y : List Int)
    (hlen : X.length = y.length) (hy : y ≠ [])
    (herr : s.cfg.kind_sel ∉ SEL_KIND ∨
            s.cfg.threshold_cleaning > 1 ∨ s.cfg.threshold_cleaning < 0) :
    (∃ e, (fitStep s X y).1 = Except.error e) ∧
    (fitStep s X y).2 =
      { s with
        X_shape := some (X.length, (X.headD []).length),
        ratioKeys := some (autoRatioKeys y),
        nnParams := some (s.cfg.n_neighbors + 1, s.cfg.n_jobs) } := by
  unfold fitStep
  rw [if_pos ⟨hlen, hy⟩]
  by_cases hk : s.cfg.kind_sel ∈ SEL_KIND
  · rw [if_pos hk]
    have hthr : s.cfg.threshold_cleaning > 1 ∨ s.cfg.threshold_cleaning < 0 := by
      rcases herr with h | h
      · exact absurd hk h
      · exact h
    rw [if_pos hthr]
    exact ⟨⟨FitError.valueError, rfl⟩, rfl⟩
  · rw [if_neg hk]
    exact ⟨⟨FitError.notImplementedError, rfl⟩, rfl⟩

/-- Witness for C5's amended theorem at the fixtures. -/
theorem fit_failure_retains_partial_state_witness :
    (∃ e, (fitStep (initState cfgBadKind) XEx yEx).1 = Except.error e) ∧
    (fitStep (initState cfgBadKind) XEx yEx).2 =
      { initState cfgBadKind with
        X_shape := some (XEx.length, (XEx.headD []).length),
        ratioKeys := some (autoRatioKeys yEx),
        nnParams := some ((initState cfgBadKind).cfg.n_neighbors + 1,
                          (initState cfgBadKind).cfg.n_jobs) } :=
  fit_failure_retains_partial_state (initState cfgBadKind) XEx yEx
    (by decide) (by decide) (Or.inl (by decide))

/-- C2 evaluated at a failing input: sample 0 is a minority sample; its
neighbour labels are all 1 — none of them carries the minority class 0 — yet
the "all" branch judges the neighbourhood consistent, because source line
196 applies `np.all` to the raw integer labels (numpy truthiness: all
nonzero) instead of to the minority-comparison array computed and discarded
at line 195. -/
theorem all_branch_truthiness_at_failing_input :
    0 ∈ minorityIdx yEx ∧
    cfgEx.kind_sel = "all" ∧
    nnhoodBool cfgEx knnEx yEx 0 = true ∧
    ¬ (∀ j ∈ knnEx 0, yEx.getD j 0 = classMinority yEx) := by decide

end NCR
